import Mathlib

/-!
# redVentures: the Express gateway of `server/index.js`

A shallow embedding of `server/index.js`: the per-request closure of the
`POST /api/generate-insights` handler as a state machine over the events of
the spawned child process, the parameters of the `spawn` call, the generic
error-handling middleware, and the dispatch of a request over the layers the
file registers, in registration order.

Node and Express themselves are not part of the repository.  What the file
obtains from them (`process.env`, `__dirname`, `path.resolve`, `path.join`,
`fs.existsSync`, the events of the child process, and what `express.json()`,
`express.static(root)`, `res.sendFile`, `decodeURIComponent` and `req.fresh`
do or yield on a request) is collected in `World`; what Express 4 does with
the registered layers (path and method matching, skipping, error propagation,
the default final handler) is modelled after its router in `route`.
-/

namespace RedVentures

/-! ## Data model -/

/-- A JavaScript `Error` as far as the server reads it: `err.message`, and
`err.status`, which only Express's default final handler looks at. -/
structure JsError where
  message : String
  status : Option Nat
  deriving DecidableEq, Repr

/-- The bodies the server can send. -/
inductive Body where
  /-- The source's `{ success: true, output }` -/
  | success (output : String)
  /-- The source's `{ error, details }` -/
  | failure (error : String) (details : String)
  /-- The source's `{ message }` -/
  | message (message : String)
  /-- The content of a file streamed by `res.sendFile` or `express.static`. -/
  | file (content : String)
  /-- The HTML page written by Express's default final handler (not by this file). -/
  | defaultPage
  /-- No body: what `res.json` sends with status 304 on a fresh conditional request. -/
  | empty
  deriving DecidableEq, Repr

/-- One HTTP response: status code and body. -/
structure Response where
  status : Nat
  body : Body
  deriving DecidableEq, Repr

/-- The Express response object `res` as the handlers use it: the status code
that the next send will carry (200 until `res.status` changes it) and every
`res.json` call made so far, in order.  Only the first call reaches the
client; a later call throws `ERR_HTTP_HEADERS_SENT` inside the event callback
that made it. -/
structure Res where
  statusCode : Nat
  sends : List Response
  deriving DecidableEq, Repr

/-- A fresh `res`. -/
def Res.fresh : Res := ⟨200, []⟩

/-- The source's `res.status(code)` -/
def Res.status (res : Res) (code : Nat) : Res :=
  { res with statusCode := code }

/-- The source's `res.json(body)` -/
def Res.json (res : Res) (body : Body) : Res :=
  { res with sends := res.sends ++ [⟨res.statusCode, body⟩] }

/-- The response the client receives: the first send, if any. -/
def Res.wire (res : Res) : Option Response :=
  res.sends.head?

/-- An event of the child process, as delivered to the four listeners the
handler installs.  A data chunk is represented by the text `data.toString()`
yields; `code` is `none` for the `null` of a child killed by a signal. -/
inductive Event where
  | stdoutData (data : String)
  | stderrData (data : String)
  | error (error : JsError)
  | close (code : Option Int)
  deriving DecidableEq, Repr

/-- The arguments of one `spawn(command, args, { cwd, env })` call. -/
structure SpawnCall where
  command : String
  args : List String
  cwd : String
  env : List (String × String)
  deriving DecidableEq, Repr

/-- Request methods. HEAD and OPTIONS requests, which Express partly answers
on its own, are not modelled. -/
inductive Method where
  | GET | POST | PUT | PATCH | DELETE
  deriving DecidableEq, Repr

/-- An incoming request: method, path name and raw body. -/
structure Request where
  method : Method
  path : String
  body : String
  deriving DecidableEq, Repr

/-- What a layer does with a request. -/
inductive LayerResult where
  /-- It sends a response. -/
  | respond (r : Response)
  /-- It calls `next()`. -/
  | next
  /-- It calls `next(err)`, or throws `err` synchronously. -/
  | nextErr (err : JsError)
  /-- It returns without sending and without calling `next`. -/
  | pending
  deriving DecidableEq, Repr

/-- Everything the server obtains from outside `index.js`. -/
structure World where
  /-- The source's `process.env`, as a list of own properties. -/
  env : List (String × String)
  /-- The source's `__dirname` -/
  dirname : String
  /-- The source's `path.resolve(a, b)` -/
  resolve : String → String → String
  /-- The source's `path.join(a, b)` -/
  join : String → String → String
  /-- The source's `fs.existsSync`, on the disk as it is when the `close` listener runs. -/
  existsSync : String → Bool
  /-- The events the child started by a `spawn` call emits, in order. -/
  subprocess : SpawnCall → List Event
  /-- The source's `express.json()`: `none` when it calls `next()`, `some err` when it calls `next(err)`. -/
  jsonError : Request → Option JsError
  /-- The middleware `express.static(root)` on a request: it answers (a file, a
  redirect for a directory, 304, ...), passes the request on, or forwards an error. -/
  expressStatic : String → Request → LayerResult
  /-- The call `res.sendFile(path)` without callback, made while handling a
  request: it answers, or forwards its error with `next(err)`. -/
  sendFile : String → Request → LayerResult
  /-- The built-in `decodeURIComponent`: `none` when it throws `URIError`. -/
  decodeURIComponent : String → Option String
  /-- Express's `req.fresh` at the moment `res.json` is about to send the given
  response: the request is a conditional GET whose validators match it. -/
  fresh : Request → Response → Bool

/-! ## `process.env` and the `spawn` call -/

/-- Property read `obj[key]` on an object given as its list of properties. -/
def getProp (obj : List (String × String)) (key : String) : Option String :=
  match obj with
  | [] => none
  | (k, v) :: rest => if k = key then some v else getProp rest key

/-- Property write `obj[key] = value`: an existing key keeps its place, a new
key is appended. -/
def setProp (obj : List (String × String)) (key value : String) : List (String × String) :=
  match obj with
  | [] => [(key, value)]
  | (k, v) :: rest => if k = key then (key, value) :: rest else (k, v) :: setProp rest key value

/-- The source's `process.env.NODE_ENV === 'production'` -/
def isProduction (w : World) : Bool :=
  getProp w.env "NODE_ENV" == some "production"

/-- The source's `scriptPath` -/
def scriptPath (w : World) : String :=
  w.resolve w.dirname "../data_processing/generate_insights.py"

/-- The source's `pythonCommand` -/
def pythonCommand (w : World) : String :=
  if isProduction w then "python3" else "python"

/-- The `spawn` call of the insight handler (lines 44-50). The request is an
argument of the handler and is not read. -/
def spawnCall (w : World) (_req : Request) : SpawnCall :=
  { command := pythonCommand w
    args := [scriptPath w]
    cwd := w.resolve w.dirname "../data_processing"
    env := setProp w.env "PYTHONUNBUFFERED" "1" }

/-! ## The insight handler as a state machine over child-process events -/

/-- The closure of one `POST /api/generate-insights` request. -/
structure Handler where
  dataReceived : String
  errorReceived : String
  res : Res
  deriving DecidableEq, Repr

/-- The closure right after `spawn`: both buffers empty, nothing sent. -/
def Handler.init : Handler := ⟨"", "", Res.fresh⟩

/-- The source's `outputPath` -/
def outputPath (w : World) : String :=
  w.join w.dirname "../dashboard/public/exported_results/call_3_result.txt"

/-- The source's `pythonProcess.stdout.on('data', ...)` -/
def onStdoutData (h : Handler) (data : String) : Handler :=
  { h with dataReceived := h.dataReceived ++ data }

/-- The source's `pythonProcess.stderr.on('data', ...)` -/
def onStderrData (h : Handler) (data : String) : Handler :=
  { h with errorReceived := h.errorReceived ++ data }

/-- The source's `pythonProcess.on('error', ...)` -/
def onError (h : Handler) (error : JsError) : Handler :=
  let body := Body.failure "Failed to start Python process" error.message
  { h with res := (h.res.status 500).json body }

/-- The source's `errorReceived || 'No error details available'`: the empty string is falsy. -/
def detailsOr (errorReceived : String) : String :=
  if errorReceived = "" then "No error details available" else errorReceived

/-- The source's `pythonProcess.on('close', ...)` -/
def onClose (w : World) (h : Handler) (code : Option Int) : Handler :=
  if code ≠ some 0 then
    let body := Body.failure "Failed to generate insights" (detailsOr h.errorReceived)
    { h with res := (h.res.status 500).json body }
  else if !w.existsSync (outputPath w) then
    let body := Body.failure "Output file not created"
      "The Python script completed but did not create the output file"
    { h with res := (h.res.status 500).json body }
  else
    { h with res := h.res.json (Body.success h.dataReceived) }

/-- Deliver one event to its listener. -/
def step (w : World) (h : Handler) : Event → Handler
  | Event.stdoutData data => onStdoutData h data
  | Event.stderrData data => onStderrData h data
  | Event.error error => onError h error
  | Event.close code => onClose w h code

/-- Deliver a sequence of events, in order, starting from closure `h`. -/
def runFrom (w : World) (h : Handler) (events : List Event) : Handler :=
  events.foldl (step w) h

/-- One request: the closure after all events of the child were delivered. -/
def run (w : World) (events : List Event) : Handler :=
  runFrom w Handler.init events

/-- The response the client of one insight request receives, if any. -/
def insightResponse (w : World) (events : List Event) : Option Response :=
  (run w events).res.wire

/-- The stdout chunks of an event sequence, in arrival order. -/
def stdoutChunks : List Event → List String
  | [] => []
  | Event.stdoutData data :: rest => data :: stdoutChunks rest
  | _ :: rest => stdoutChunks rest

/-- The stderr chunks of an event sequence, in arrival order. -/
def stderrChunks : List Event → List String
  | [] => []
  | Event.stderrData data :: rest => data :: stderrChunks rest
  | _ :: rest => stderrChunks rest

/-- Concatenation of chunks, in order. -/
def concat (chunks : List String) : String :=
  chunks.foldl (· ++ ·) ""

/-- Whether an event is a stdout or stderr data event. -/
def Event.isData : Event → Bool
  | Event.stdoutData _ => true
  | Event.stderrData _ => true
  | _ => false

/-- Whether an event is a stdout data event. -/
def Event.isStdout : Event → Bool
  | Event.stdoutData _ => true
  | _ => false

/-- An event sequence with its stdout data events removed. -/
def withoutStdout (events : List Event) : List Event :=
  events.filter (fun e => !e.isStdout)

/-! ## The layers of the application and their dispatch -/

/-- The layers `index.js` registers, by the call that registers them. -/
inductive LayerId where
  | cors | json | staticBuild | staticExported | generateInsights | apiTest
  | errorHandler | catchAll
  deriving DecidableEq, Repr

/-- A handler function, by its arity: `(req, res, next)` or `(err, req, res, next)`. -/
inductive Handle where
  | request (fn : Request → LayerResult)
  | error (fn : JsError → Request → LayerResult)

/-- What matching a layer's path against the path of a request yields. -/
inductive PathMatch where
  | matched
  | unmatched
  /-- Matching threw: a captured parameter could not be decoded. -/
  | failed (err : JsError)
  deriving DecidableEq, Repr

/-- One entry of the router stack: the path test, the method of a route
registered with `app.get` or `app.post` (`none` for `app.use`), the handler. -/
structure Layer where
  id : LayerId
  pathMatch : String → PathMatch
  method : Option Method
  handle : Handle

/-- Lower-cased characters of a path. -/
def lower (s : String) : List Char :=
  s.data.map Char.toLower

/-- Express route matching of a literal route path with the defaults
(case-insensitive, not strict): the paths equal to the pattern up to letter
case and one trailing slash. -/
def routeMatches (pattern path : String) : Bool :=
  lower path == lower pattern || lower path == lower pattern ++ ['/']

/-- The path test of a route registered with a literal path: it has no
parameter to decode and cannot fail. -/
def literalMatch (pattern path : String) : PathMatch :=
  if routeMatches pattern path then PathMatch.matched else PathMatch.unmatched

/-- The path test of a route registered with `'*'`: every path matches and is
captured as parameter 0, which Express decodes while matching; a capture that
`decodeURIComponent` rejects makes the test fail with a 400 error. -/
def starMatch (w : World) (path : String) : PathMatch :=
  if path = "" then PathMatch.matched
  else
    match w.decodeURIComponent path with
    | some _ => PathMatch.matched
    | none => PathMatch.failed ⟨"Failed to decode param \x27" ++ path ++ "\x27", some 400⟩

/-- Express mount-path matching for `app.use(mount, ...)`: the path starts with
the mount path, up to letter case, and ends there or goes on with a slash. -/
def mountMatches (mount path : String) : Bool :=
  (lower mount).isPrefixOf (lower path) &&
    ((path.data.drop mount.length).head? == none ||
      (path.data.drop mount.length).head? == some '/')

/-- The path test of a layer mounted with `app.use(mount, ...)`. -/
def mountMatch (mount path : String) : PathMatch :=
  if mountMatches mount path then PathMatch.matched else PathMatch.unmatched

/-- The path a mounted handler sees: the mount path stripped, `/` if nothing is left. -/
def mountedPath (mount path : String) : String :=
  if path.data.drop mount.length = [] then "/" else ⟨path.data.drop mount.length⟩

/-- The bundle root served at line 26. -/
def buildRoot (w : World) : String :=
  w.join w.dirname "../dashboard/build"

/-- The directory served under `/exported_results` at lines 29-31. -/
def exportedRoot (w : World) : String :=
  w.join w.dirname "../dashboard/public/exported_results"

/-- The entry document the catch-all route sends (line 125). -/
def entryDocument (w : World) : String :=
  w.join w.dirname "../dashboard/build/index.html"

/-- The insight endpoint (lines 33-106) as a layer: it spawns the child and
returns; the client receives the first response its listeners send, if any. -/
def generateInsights (w : World) (req : Request) : LayerResult :=
  match insightResponse w (w.subprocess (spawnCall w req)) with
  | some r => LayerResult.respond r
  | none => LayerResult.pending

/-- The health endpoint (lines 109-111): `res.json` with the default status
200; on a conditional GET that Express finds fresh, `res.json` sends 304
without body instead. (`req.fresh` is false on a POST request and for a
response of status 500, so it plays no part in the other handlers.) -/
def apiTest (w : World) (req : Request) : LayerResult :=
  if w.fresh req ⟨200, Body.message "API is working"⟩ then
    LayerResult.respond ⟨304, Body.empty⟩
  else LayerResult.respond ⟨200, Body.message "API is working"⟩

/-- The error-handling middleware (lines 114-120). -/
def errorHandler (w : World) (err : JsError) (_req : Request) : LayerResult :=
  LayerResult.respond ⟨500, Body.failure "Internal server error"
    (if isProduction w then "An error occurred" else err.message)⟩

/-- The catch-all route (lines 123-126). -/
def catchAll (w : World) (req : Request) : LayerResult :=
  w.sendFile (entryDocument w) req

/-- The router stack of `app`, in registration order. `cors()` is registered
outside production only; it passes every modelled request on. -/
def app (w : World) : List Layer :=
  (if isProduction w then []
    else [⟨LayerId.cors, fun _ => PathMatch.matched, none,
      Handle.request (fun _ => LayerResult.next)⟩]) ++
  [ ⟨LayerId.json, fun _ => PathMatch.matched, none, Handle.request (fun req =>
      match w.jsonError req with
      | none => LayerResult.next
      | some err => LayerResult.nextErr err)⟩,
    ⟨LayerId.staticBuild, fun _ => PathMatch.matched, none,
      Handle.request (w.expressStatic (buildRoot w))⟩,
    ⟨LayerId.staticExported, mountMatch "/exported_results", none,
      Handle.request (fun req => w.expressStatic (exportedRoot w)
        { req with path := mountedPath "/exported_results" req.path })⟩,
    ⟨LayerId.generateInsights, literalMatch "/api/generate-insights", some Method.POST,
      Handle.request (generateInsights w)⟩,
    ⟨LayerId.apiTest, literalMatch "/api/test", some Method.GET,
      Handle.request (apiTest w)⟩,
    ⟨LayerId.errorHandler, fun _ => PathMatch.matched, none,
      Handle.error (errorHandler w)⟩,
    ⟨LayerId.catchAll, starMatch w, some Method.GET, Handle.request (catchAll w)⟩ ]

/-- The status Express's default final handler answers an unhandled error with:
`err.status` when it is a 4xx or 5xx code, 500 otherwise. -/
def finalStatus (err : JsError) : Nat :=
  match err.status with
  | some s => if 400 ≤ s ∧ s < 600 then s else 500
  | none => 500

/-- Express 4 dispatch of a request over a router stack, with the error pending
from an earlier layer, if any. The path test of each layer runs first: when
it throws, its error becomes the pending one unless one is pending already,
and the layer is skipped. A route is skipped while an error is pending or
when its method is not the request's. A layer that is not skipped runs when
its arity fits: request handlers while no error is pending, error handlers
while one is. When the stack is exhausted the default final handler answers
with its own page: 404 without a pending error, `finalStatus err` with one.
The result is the response the client receives, `none` if no layer sends one. -/
def route : List Layer → Request → Option JsError → Option Response
  | [], _, none => some ⟨404, Body.defaultPage⟩
  | [], _, some err => some ⟨finalStatus err, Body.defaultPage⟩
  | layer :: rest, req, pendingErr =>
    match layer.pathMatch req.path with
    | PathMatch.failed err => route rest req (some (pendingErr.getD err))
    | PathMatch.unmatched => route rest req pendingErr
    | PathMatch.matched =>
      if layer.method ≠ none ∧ (pendingErr ≠ none ∨ layer.method ≠ some req.method) then
        route rest req pendingErr
      else
        match layer.handle, pendingErr with
        | Handle.request fn, none =>
          match fn req with
          | LayerResult.respond r => some r
          | LayerResult.next => route rest req none
          | LayerResult.nextErr err => route rest req (some err)
          | LayerResult.pending => none
        | Handle.error fn, some err =>
          match fn err req with
          | LayerResult.respond r => some r
          | LayerResult.next => route rest req none
          | LayerResult.nextErr err' => route rest req (some err')
          | LayerResult.pending => none
        | _, _ => route rest req pendingErr

/-- A response with the captured stdout blanked in a success body. -/
def redact (r : Response) : Response :=
  match r.body with
  | Body.success _ => ⟨r.status, Body.success ""⟩
  | _ => r

/-- Two closures that differ at most in the captured stdout: same stderr
buffer, same pending status code, same sends up to the output of a success
body. -/
def agree (h₁ h₂ : Handler) : Prop :=
  h₁.errorReceived = h₂.errorReceived ∧ h₁.res.statusCode = h₂.res.statusCode ∧
    h₁.res.sends.map redact = h₂.res.sends.map redact

/-- While nothing is sent the pending status code is still 200, and a first
send with status 500 never carries a success body. -/
def firstSendOk (h : Handler) : Prop :=
  (h.res.sends = [] → h.res.statusCode = 200) ∧
    ∀ r, h.res.wire = some r → r.status = 500 → ∀ out, r.body ≠ Body.success out

/-! ## Sample worlds and inputs -/

/-- A development machine on which the artifact exists, the bundle holds the
entry document only, and the child prints two stdout chunks around one stderr
chunk, then exits 0. Its requests are unconditional and carry no percent
escape in the path. -/
def devWorld : World :=
  { env := [("PATH", "/usr/bin"), ("PYTHONUNBUFFERED", "0")]
    dirname := "/srv/server"
    resolve := fun a b => a ++ "/" ++ b
    join := fun a b => a ++ "/" ++ b
    existsSync := fun _ => true
    subprocess := fun _ =>
      [Event.stdoutData "a", Event.stderrData "warn", Event.stdoutData "b", Event.close (some 0)]
    jsonError := fun _ => none
    expressStatic := fun root req =>
      if req.method = Method.GET ∧ root = "/srv/server/../dashboard/build" ∧
          (req.path = "/" ∨ req.path = "/index.html") then
        LayerResult.respond ⟨200, Body.file "<html>app</html>"⟩
      else LayerResult.next
    sendFile := fun path _ =>
      if path = "/srv/server/../dashboard/build/index.html" then
        LayerResult.respond ⟨200, Body.file "<html>app</html>"⟩
      else LayerResult.nextErr ⟨"ENOENT: no such file or directory", some 404⟩
    decodeURIComponent := fun s => if s.data.contains '%' then none else some s
    fresh := fun _ _ => false }

/-- A production machine with an empty disk on which `python3` is not
installed. Its requests are unconditional and carry no percent escape in the
path. -/
def prodWorld : World :=
  { env := [("NODE_ENV", "production")]
    dirname := "/srv/server"
    resolve := fun a b => a ++ "/" ++ b
    join := fun a b => a ++ "/" ++ b
    existsSync := fun _ => false
    subprocess := fun _ =>
      [Event.error ⟨"spawn python3 ENOENT", none⟩, Event.close (some (-2))]
    jsonError := fun _ => none
    expressStatic := fun _ _ => LayerResult.next
    sendFile := fun _ _ => LayerResult.nextErr ⟨"ENOENT: no such file or directory", some 404⟩
    decodeURIComponent := fun s => if s.data.contains '%' then none else some s
    fresh := fun _ _ => false }

/-- Two stdout chunks around one stderr chunk. -/
def sampleData : List Event :=
  [Event.stdoutData "a", Event.stderrData "warn", Event.stdoutData "b"]

/-! ## Theorems: the insight handler -/

theorem concat_from (acc : String) (chunks : List String) :
    chunks.foldl (· ++ ·) acc = acc ++ concat chunks := by
  induction chunks generalizing acc with
  | nil => simp [concat]
  | cons c cs ih =>
    simp only [concat, List.foldl_cons]
    rw [ih (acc ++ c), ih ("" ++ c), String.empty_append, String.append_assoc]

theorem concat_cons (c : String) (chunks : List String) :
    concat (c :: chunks) = c ++ concat chunks := by
  simp only [concat, List.foldl_cons, String.empty_append]
  exact concat_from c chunks

theorem concat_nil : concat [] = "" := rfl

/-- Data events only fill the two buffers: nothing is sent, and each buffer
grows by the concatenation of its own chunks. -/
theorem runFrom_data (w : World) (events : List Event) (h : Handler)
    (hdata : events.all Event.isData = true) :
    runFrom w h events =
      { dataReceived := h.dataReceived ++ concat (stdoutChunks events)
        errorReceived := h.errorReceived ++ concat (stderrChunks events)
        res := h.res } := by
  induction events generalizing h with
  | nil => simp [runFrom, stdoutChunks, stderrChunks, concat_nil]
  | cons e es ih =>
    simp only [List.all_cons, Bool.and_eq_true] at hdata
    have ih2 := fun h => ih h hdata.2
    simp only [runFrom] at ih2
    cases e with
    | stdoutData d =>
      simp only [runFrom, List.foldl_cons, step, ih2, onStdoutData, stdoutChunks, stderrChunks,
        concat_cons, String.append_assoc]
    | stderrData d =>
      simp only [runFrom, List.foldl_cons, step, ih2, onStderrData, stdoutChunks, stderrChunks,
        concat_cons, String.append_assoc]
    | error err => simp [Event.isData] at hdata
    | close code => simp [Event.isData] at hdata

theorem runFrom_append (w : World) (h : Handler) (es₁ es₂ : List Event) :
    runFrom w h (es₁ ++ es₂) = runFrom w (runFrom w h es₁) es₂ := by
  simp [runFrom, List.foldl_append]

/-- The closure after data events only, from the initial closure. -/
theorem run_data (w : World) (events : List Event)
    (hdata : events.all Event.isData = true) :
    run w events =
      { dataReceived := concat (stdoutChunks events)
        errorReceived := concat (stderrChunks events)
        res := Res.fresh } := by
  rw [run, runFrom_data w events Handler.init hdata]
  simp [Handler.init]

/-- One event keeps the sends made so far and appends at most one. -/
theorem step_sends (w : World) (h : Handler) (e : Event) :
    ∃ more, (step w h e).res.sends = h.res.sends ++ more := by
  cases e with
  | stdoutData d => exact ⟨[], by simp [step, onStdoutData]⟩
  | stderrData d => exact ⟨[], by simp [step, onStderrData]⟩
  | error err => exact ⟨[_], rfl⟩
  | close code =>
    simp only [step, onClose]
    split
    · exact ⟨[_], rfl⟩
    · split
      · exact ⟨[_], rfl⟩
      · exact ⟨[_], rfl⟩

/-- Every send made so far stays: later events only append sends. -/
theorem sends_grow (w : World) (events : List Event) (h : Handler) :
    ∃ more, (runFrom w h events).res.sends = h.res.sends ++ more := by
  induction events generalizing h with
  | nil => exact ⟨[], by simp [runFrom]⟩
  | cons e es ih =>
    obtain ⟨more, hmore⟩ := ih (step w h e)
    obtain ⟨one, hone⟩ := step_sends w h e
    refine ⟨one ++ more, ?_⟩
    simp only [runFrom, List.foldl_cons] at hmore ⊢
    rw [hmore, hone, List.append_assoc]

/-- Once a response is on the wire, later events do not change it. -/
theorem wire_stable (w : World) (events : List Event) (h : Handler) (r : Response)
    (hr : h.res.wire = some r) : (runFrom w h events).res.wire = some r := by
  obtain ⟨more, hmore⟩ := sends_grow w events h
  simp only [Res.wire] at hr ⊢
  rw [hmore]
  cases hs : h.res.sends with
  | nil => simp [hs] at hr
  | cons a as => simpa [hs] using hr

/-- Each `error` or `close` event makes exactly one send, a data event none:
the number of sends is the number of `error` and `close` events delivered. -/
theorem sends_length (w : World) (events : List Event) (h : Handler) :
    (runFrom w h events).res.sends.length =
      h.res.sends.length + (events.filter (fun e => !e.isData)).length := by
  induction events generalizing h with
  | nil => simp [runFrom]
  | cons e es ih =>
    have ih2 := ih (step w h e)
    simp only [runFrom, List.foldl_cons] at ih2 ⊢
    rw [ih2]
    cases e with
    | stdoutData d => simp [step, onStdoutData, Event.isData]
    | stderrData d => simp [step, onStderrData, Event.isData]
    | error err => simp [step, onError, Res.json, Res.status, Event.isData]; omega
    | close code =>
      simp only [step, onClose]
      split
      · simp [Res.json, Res.status, Event.isData]; omega
      · split
        · simp [Res.json, Res.status, Event.isData]; omega
        · simp [Res.json, Event.isData]; omega

/-- C1: when only data events precede a close with exit code 0 and the output
artifact exists, the handler sends exactly one response, status 200 with body
{success: true, output: s}, where s is the concatenation of the stdout chunks
in arrival order (the empty string when there is none), whatever the stderr
chunks interleaved with them. -/
theorem generate_insights_success (w : World) (events : List Event)
    (hdata : events.all Event.isData = true)
    (hartifact : w.existsSync (outputPath w) = true) :
    (run w (events ++ [Event.close (some 0)])).res.sends =
        [⟨200, Body.success (concat (stdoutChunks events))⟩] ∧
      (stdoutChunks events = [] →
        insightResponse w (events ++ [Event.close (some 0)]) = some ⟨200, Body.success ""⟩) := by
  have hsends : (run w (events ++ [Event.close (some 0)])).res.sends =
      [⟨200, Body.success (concat (stdoutChunks events))⟩] := by
    rw [run, runFrom_append, ← run, run_data w events hdata]
    simp [runFrom, step, onClose, hartifact, Res.json, Res.fresh]
  refine ⟨hsends, fun hnone => ?_⟩
  simp [insightResponse, Res.wire, hsends, hnone, concat_nil]

theorem generate_insights_success_witness :
    (run devWorld (sampleData ++ [Event.close (some 0)])).res.sends =
        [⟨200, Body.success "ab"⟩] :=
  (generate_insights_success devWorld sampleData (by decide) (by rfl)).1

/-- C2: when only data events precede a close with a code other than 0 (any
number, or null), the handler sends exactly one response, status 500 with
body {error: "Failed to generate insights", details: d}; d is the
concatenation of the stderr chunks in arrival order when that is non-empty
and "No error details available" when it is empty. The disk is not
consulted: this holds in every world. -/
theorem generate_insights_nonzero_exit (w : World) (events : List Event) (code : Option Int)
    (hdata : events.all Event.isData = true) (hcode : code ≠ some 0) :
    (concat (stderrChunks events) ≠ "" →
      (run w (events ++ [Event.close code])).res.sends =
        [⟨500, Body.failure "Failed to generate insights" (concat (stderrChunks events))⟩]) ∧
    (concat (stderrChunks events) = "" →
      (run w (events ++ [Event.close code])).res.sends =
        [⟨500, Body.failure "Failed to generate insights" "No error details available"⟩]) := by
  have hsends : (run w (events ++ [Event.close code])).res.sends =
      [⟨500, Body.failure "Failed to generate insights"
        (detailsOr (concat (stderrChunks events)))⟩] := by
    rw [run, runFrom_append, ← run, run_data w events hdata]
    simp [runFrom, step, onClose, hcode, Res.json, Res.status, Res.fresh]
  constructor
  · intro hne
    rw [hsends, detailsOr, if_neg hne]
  · intro he
    rw [hsends, detailsOr, if_pos he]

theorem generate_insights_nonzero_exit_witness :
    (run devWorld ([Event.stdoutData "partial", Event.stderrData "boom"] ++
        [Event.close (some 7)])).res.sends =
      [⟨500, Body.failure "Failed to generate insights" "boom"⟩] ∧
    (run prodWorld ([Event.stdoutData "partial"] ++ [Event.close none])).res.sends =
      [⟨500, Body.failure "Failed to generate insights" "No error details available"⟩] :=
  ⟨(generate_insights_nonzero_exit devWorld
      [Event.stdoutData "partial", Event.stderrData "boom"] (some 7)
      (by decide) (by decide)).1 (by decide),
   (generate_insights_nonzero_exit prodWorld [Event.stdoutData "partial"] none
      (by decide) (by decide)).2 (by rfl)⟩

/-- C3: when the child emits an error event carrying e and only data events
came before it, the client receives status 500 with body
{error: "Failed to start Python process", details: e.message}, for every e
and whatever events follow. -/
theorem launch_failure_response (w : World) (before after : List Event) (e : JsError)
    (hdata : before.all Event.isData = true) :
    insightResponse w (before ++ Event.error e :: after) =
      some ⟨500, Body.failure "Failed to start Python process" e.message⟩ := by
  have hcons : before ++ Event.error e :: after = (before ++ [Event.error e]) ++ after := by simp
  rw [insightResponse, hcons, run, runFrom_append]
  apply wire_stable
  rw [runFrom_append, ← run, run_data w before hdata]
  simp [runFrom, step, onError, Res.json, Res.status, Res.fresh, Res.wire]

theorem launch_failure_response_witness :
    insightResponse prodWorld
        ([] ++ Event.error ⟨"spawn python3 ENOENT", none⟩ :: [Event.close (some (-2))]) =
      some ⟨500, Body.failure "Failed to start Python process" "spawn python3 ENOENT"⟩ :=
  launch_failure_response prodWorld [] [Event.close (some (-2))]
    ⟨"spawn python3 ENOENT", none⟩ (by decide)

/-- A success body is only ever sent by a close listener that found the artifact. -/
theorem success_needs_artifact (w : World) (events : List Event) (h : Handler)
    (r : Response) (out : String) (hbody : r.body = Body.success out)
    (hr : r ∈ (runFrom w h events).res.sends) :
    r ∈ h.res.sends ∨ w.existsSync (outputPath w) = true := by
  induction events generalizing h with
  | nil => exact Or.inl (by simpa [runFrom] using hr)
  | cons e es ih =>
    simp only [runFrom, List.foldl_cons] at hr
    rcases ih (step w h e) hr with hin | hex
    · cases e with
      | stdoutData d => exact Or.inl (by simpa [step, onStdoutData] using hin)
      | stderrData d => exact Or.inl (by simpa [step, onStderrData] using hin)
      | error err =>
        simp only [step, onError, Res.json, Res.status, List.mem_append,
          List.mem_singleton] at hin
        rcases hin with hin | hin
        · exact Or.inl hin
        · rw [hin] at hbody; simp at hbody
      | close code =>
        simp only [step, onClose] at hin
        split at hin
        · simp only [Res.json, Res.status, List.mem_append, List.mem_singleton] at hin
          rcases hin with hin | hin
          · exact Or.inl hin
          · rw [hin] at hbody; simp at hbody
        · split at hin
          · simp only [Res.json, Res.status, List.mem_append, List.mem_singleton] at hin
            rcases hin with hin | hin
            · exact Or.inl hin
            · rw [hin] at hbody; simp at hbody
          · rename_i hex
            exact Or.inr (by simpa using hex)
    · exact Or.inr hex

/-- C4: when only data events precede a close with exit code 0 and the output
artifact does not exist, the handler sends exactly one response, status 500
with body {error: "Output file not created", details: "The Python script
completed but did not create the output file"}, whatever was captured on
stdout and stderr; and over any event sequence at all, a success body is sent
only if the artifact exists. -/
theorem output_file_not_created (w : World) (events : List Event)
    (hdata : events.all Event.isData = true) :
    (w.existsSync (outputPath w) = false →
      (run w (events ++ [Event.close (some 0)])).res.sends =
        [⟨500, Body.failure "Output file not created"
          "The Python script completed but did not create the output file"⟩]) ∧
    (∀ (any : List Event) (status : Nat) (out : String),
      ⟨status, Body.success out⟩ ∈ (run w any).res.sends →
        w.existsSync (outputPath w) = true) := by
  constructor
  · intro hmissing
    rw [run, runFrom_append, ← run, run_data w events hdata]
    simp [runFrom, step, onClose, hmissing, Res.json, Res.status, Res.fresh]
  · intro any status out hmem
    rcases success_needs_artifact w any Handler.init ⟨status, Body.success out⟩ out rfl hmem
      with hin | hex
    · simp [Handler.init, Res.fresh] at hin
    · exact hex

theorem output_file_not_created_witness :
    (run prodWorld (sampleData ++ [Event.close (some 0)])).res.sends =
      [⟨500, Body.failure "Output file not created"
        "The Python script completed but did not create the output file"⟩] :=
  (output_file_not_created prodWorld sampleData (by decide)).1 (by rfl)

/-- C5, at the failing input: a launch failure delivers an error event and
then a close event with a non-zero code; the error listener sends the launch
failure response and the close listener then calls res.status(500).json a
second time on the same response. -/
theorem launch_failure_then_close_sends_twice (w : World) (e : JsError) :
    (run w [Event.error e, Event.close (some (-2))]).res.sends =
      [⟨500, Body.failure "Failed to start Python process" e.message⟩,
       ⟨500, Body.failure "Failed to generate insights" "No error details available"⟩] := by
  simp [run, runFrom, step, onError, onClose, Handler.init, Res.json, Res.status, Res.fresh,
    detailsOr]

/-- The number of sends of one request is the number of error and close
events its child delivers: one send exactly when there is one such event. -/
theorem sends_count (w : World) (events : List Event) :
    (run w events).res.sends.length = (events.filter (fun e => !e.isData)).length := by
  rw [run, sends_length]
  simp [Handler.init, Res.fresh]

theorem agree_refl (h : Handler) : agree h h := ⟨rfl, rfl, rfl⟩

theorem agree_symm {h₁ h₂ : Handler} (h : agree h₁ h₂) : agree h₂ h₁ :=
  ⟨h.1.symm, h.2.1.symm, h.2.2.symm⟩

theorem agree_trans {h₁ h₂ h₃ : Handler} (h : agree h₁ h₂) (h' : agree h₂ h₃) : agree h₁ h₃ :=
  ⟨h.1.trans h'.1, h.2.1.trans h'.2.1, h.2.2.trans h'.2.2⟩

/-- The same event other than a stdout chunk keeps two closures in agreement. -/
theorem step_agree (w : World) (h₁ h₂ : Handler) (e : Event) (hag : agree h₁ h₂)
    (he : e.isStdout = false) : agree (step w h₁ e) (step w h₂ e) := by
  obtain ⟨herr, hcode, hsends⟩ := hag
  cases e with
  | stdoutData d => simp [Event.isStdout] at he
  | stderrData d => exact ⟨by simp [step, onStderrData, herr], hcode, hsends⟩
  | error err =>
    refine ⟨herr, rfl, ?_⟩
    simp [step, onError, Res.json, Res.status, hsends]
  | close code =>
    simp only [step, onClose]
    split
    · refine ⟨herr, rfl, ?_⟩
      simp [Res.json, Res.status, hsends, herr]
    · split
      · refine ⟨herr, rfl, ?_⟩
        simp [Res.json, Res.status, hsends]
      · refine ⟨herr, hcode, ?_⟩
        simp [Res.json, hsends, hcode, redact]

/-- A stdout chunk leaves everything but the stdout buffer as it was. -/
theorem step_stdout_agree (w : World) (h : Handler) (d : String) :
    agree (step w h (Event.stdoutData d)) h := ⟨rfl, rfl, rfl⟩

/-- Dropping the stdout chunks of a run changes no send beyond the output of
a success body. -/
theorem run_agree_withoutStdout (w : World) (events : List Event) (h₁ h₂ : Handler)
    (hag : agree h₁ h₂) :
    agree (runFrom w h₁ events) (runFrom w h₂ (withoutStdout events)) := by
  induction events generalizing h₁ h₂ with
  | nil => simpa [runFrom, withoutStdout] using hag
  | cons e es ih =>
    cases he : e.isStdout with
    | true =>
      cases e with
      | stdoutData d =>
        have hag2 : agree (step w h₁ (Event.stdoutData d)) h₂ :=
          agree_trans (step_stdout_agree w h₁ d) hag
        simpa [runFrom, withoutStdout, Event.isStdout] using ih _ _ hag2
      | stderrData d => simp [Event.isStdout] at he
      | error err => simp [Event.isStdout] at he
      | close code => simp [Event.isStdout] at he
    | false =>
      have hag2 := step_agree w h₁ h₂ e hag he
      simpa [runFrom, withoutStdout, he] using ih _ _ hag2

theorem firstSendOk_step (w : World) (h : Handler) (e : Event) (hok : firstSendOk h) :
    firstSendOk (step w h e) := by
  obtain ⟨hcode, hfirst⟩ := hok
  cases e with
  | stdoutData d => exact ⟨hcode, hfirst⟩
  | stderrData d => exact ⟨hcode, hfirst⟩
  | error err =>
    refine ⟨by simp [step, onError, Res.json, Res.status], ?_⟩
    intro r hr h500 out
    cases hs : h.res.sends with
    | nil =>
      simp [step, onError, Res.json, Res.status, Res.wire, hs] at hr
      rw [← hr]; simp
    | cons a as =>
      simp [step, onError, Res.json, Res.status, Res.wire, hs] at hr
      exact hfirst r (by simp [Res.wire, hs, hr]) h500 out
  | close code =>
    simp only [step, onClose]
    split
    · refine ⟨by simp [Res.json, Res.status], ?_⟩
      intro r hr h500 out
      cases hs : h.res.sends with
      | nil =>
        simp [Res.json, Res.status, Res.wire, hs] at hr
        rw [← hr]; simp
      | cons a as =>
        simp [Res.json, Res.status, Res.wire, hs] at hr
        exact hfirst r (by simp [Res.wire, hs, hr]) h500 out
    · split
      · refine ⟨by simp [Res.json, Res.status], ?_⟩
        intro r hr h500 out
        cases hs : h.res.sends with
        | nil =>
          simp [Res.json, Res.status, Res.wire, hs] at hr
          rw [← hr]; simp
        | cons a as =>
          simp [Res.json, Res.status, Res.wire, hs] at hr
          exact hfirst r (by simp [Res.wire, hs, hr]) h500 out
      · refine ⟨by simp [Res.json], ?_⟩
        intro r hr h500 out
        cases hs : h.res.sends with
        | nil =>
          simp [Res.json, Res.wire, hs] at hr
          rw [← hr, hcode hs] at h500
          simp at h500
        | cons a as =>
          simp [Res.json, Res.wire, hs] at hr
          exact hfirst r (by simp [Res.wire, hs, hr]) h500 out

theorem firstSendOk_run (w : World) (events : List Event) : firstSendOk (run w events) := by
  have hgen : ∀ h, firstSendOk h → firstSendOk (runFrom w h events) := by
    induction events with
    | nil => intro h hok; simpa [runFrom] using hok
    | cons e es ih =>
      intro h hok
      simpa [runFrom] using ih _ (firstSendOk_step w h e hok)
  apply hgen
  exact ⟨fun _ => rfl, by simp [Handler.init, Res.fresh, Res.wire]⟩

/-- C6: two runs in the same world (same artifact on disk) whose events are
the same once the stdout chunks are removed (same stderr chunks, same error
and close events, in the same order): whenever the response of the first is
a failure (status 500), the second receives the identical response, status
and body. -/
theorem stdout_discarded_on_failure (w : World) (events₁ events₂ : List Event)
    (hsame : withoutStdout events₁ = withoutStdout events₂)
    (r : Response) (hr : insightResponse w events₁ = some r) (h500 : r.status = 500) :
    insightResponse w events₂ = some r := by
  have h1 := run_agree_withoutStdout w events₁ _ _ (agree_refl Handler.init)
  have h2 := run_agree_withoutStdout w events₂ _ _ (agree_refl Handler.init)
  rw [hsame] at h1
  have hag : agree (run w events₁) (run w events₂) := agree_trans h1 (agree_symm h2)
  have hnot := (firstSendOk_run w events₁).2 r hr h500
  have hmap := hag.2.2
  simp only [insightResponse, Res.wire] at hr ⊢
  cases hs1 : (run w events₁).res.sends with
  | nil => simp [hs1] at hr
  | cons a as =>
    simp only [hs1, List.head?_cons, Option.some.injEq] at hr
    subst hr
    cases hs2 : (run w events₂).res.sends with
    | nil => simp [hs1, hs2] at hmap
    | cons b bs =>
      simp only [hs1, hs2, List.map_cons, List.cons.injEq] at hmap
      have hab := hmap.1
      have ha : redact a = a := by
        unfold redact
        split
        · rename_i out hbody
          exact absurd hbody (hnot out)
        · rfl
      rw [ha] at hab
      have hb : redact b = b := by
        unfold redact
        split
        · rename_i out hbody
          exfalso
          simp only [redact, hbody] at hab
          exact hnot "" (by rw [hab])
        · rfl
      rw [List.head?_cons, hab, hb]

theorem stdout_discarded_on_failure_witness :
    insightResponse devWorld
        [Event.stderrData "boom", Event.stdoutData "other", Event.close (some 7)] =
      some ⟨500, Body.failure "Failed to generate insights" "boom"⟩ :=
  stdout_discarded_on_failure devWorld
    [Event.stdoutData "secret", Event.stderrData "boom", Event.close (some 7)]
    [Event.stderrData "boom", Event.stdoutData "other", Event.close (some 7)]
    (by decide) ⟨500, Body.failure "Failed to generate insights" "boom"⟩ (by decide) rfl

/-! ## Theorems: the spawn call -/

theorem getProp_setProp_self (obj : List (String × String)) (key value : String) :
    getProp (setProp obj key value) key = some value := by
  induction obj with
  | nil => simp [setProp, getProp]
  | cons kv rest ih =>
    obtain ⟨k, v⟩ := kv
    by_cases hk : k = key
    · simp [setProp, getProp, hk]
    · simp [setProp, getProp, hk, ih]

theorem getProp_setProp_other (obj : List (String × String)) (key value other : String)
    (hne : other ≠ key) : getProp (setProp obj key value) other = getProp obj other := by
  induction obj with
  | nil => simp [setProp, getProp, Ne.symm hne]
  | cons kv rest ih =>
    obtain ⟨k, v⟩ := kv
    by_cases hk : k = key
    · subst hk
      simp [setProp, getProp, Ne.symm hne]
    · simp [setProp, getProp, hk, ih]

theorem keys_setProp (obj : List (String × String)) (key value other : String) :
    other ∈ (setProp obj key value).map Prod.fst ↔ other ∈ obj.map Prod.fst ∨ other = key := by
  induction obj with
  | nil => simp [setProp]
  | cons kv rest ih =>
    obtain ⟨k, v⟩ := kv
    by_cases hk : k = key
    · subst hk
      simp only [setProp, if_true, List.map_cons, List.mem_cons]
      tauto
    · simp only [setProp, hk, if_false, List.map_cons, List.mem_cons, ih]
      tauto

/-- C7: in every world and for every request, the handler spawns `python3`
when NODE_ENV is `production` and `python` for every other value or none;
the argument list is the one resolved script path; in the environment passed
PYTHONUNBUFFERED is `1`, every other key reads as in process.env, and the
keys are those of process.env together with PYTHONUNBUFFERED; and any two
requests give the same call. -/
theorem spawn_parameters (w : World) (req : Request) :
    (getProp w.env "NODE_ENV" = some "production" → (spawnCall w req).command = "python3") ∧
    (getProp w.env "NODE_ENV" ≠ some "production" → (spawnCall w req).command = "python") ∧
    (spawnCall w req).args = [w.resolve w.dirname "../data_processing/generate_insights.py"] ∧
    getProp (spawnCall w req).env "PYTHONUNBUFFERED" = some "1" ∧
    (∀ key, key ≠ "PYTHONUNBUFFERED" →
      getProp (spawnCall w req).env key = getProp w.env key) ∧
    (∀ key, key ∈ (spawnCall w req).env.map Prod.fst ↔
      key ∈ w.env.map Prod.fst ∨ key = "PYTHONUNBUFFERED") ∧
    (∀ other : Request, spawnCall w other = spawnCall w req) := by
  refine ⟨?_, ?_, rfl, ?_, ?_, ?_, fun _ => rfl⟩
  · intro hprod
    simp [spawnCall, pythonCommand, isProduction, hprod]
  · intro hdev
    simp [spawnCall, pythonCommand, isProduction, hdev]
  · exact getProp_setProp_self _ _ _
  · intro key hne
    exact getProp_setProp_other _ _ _ _ hne
  · intro key
    exact keys_setProp _ _ _ _

theorem spawn_parameters_witness :
    (spawnCall prodWorld ⟨Method.POST, "/api/generate-insights", "[]"⟩).command = "python3" ∧
    (spawnCall devWorld ⟨Method.POST, "/api/generate-insights", "[]"⟩).command = "python" ∧
    getProp (spawnCall devWorld ⟨Method.POST, "/api/generate-insights", "[]"⟩).env "PATH" =
      getProp devWorld.env "PATH" :=
  ⟨(spawn_parameters prodWorld ⟨Method.POST, "/api/generate-insights", "[]"⟩).1 (by decide),
   (spawn_parameters devWorld ⟨Method.POST, "/api/generate-insights", "[]"⟩).2.1 (by decide),
   (spawn_parameters devWorld ⟨Method.POST, "/api/generate-insights", "[]"⟩).2.2.2.2.1
     "PATH" (by decide)⟩

/-! ## Theorems: the fault handler and dispatch -/

/-- C9: for every error delivered to the error-handling middleware the
response is status 500 with body {error: "Internal server error", details: d};
d is `An error occurred` when NODE_ENV is `production` and err.message for
every other value or none; in production any two errors get the same
response. -/
theorem fault_handler_response (w : World) (err : JsError) (req : Request) :
    (getProp w.env "NODE_ENV" = some "production" →
      errorHandler w err req =
        LayerResult.respond ⟨500, Body.failure "Internal server error" "An error occurred"⟩) ∧
    (getProp w.env "NODE_ENV" ≠ some "production" →
      errorHandler w err req =
        LayerResult.respond ⟨500, Body.failure "Internal server error" err.message⟩) ∧
    (getProp w.env "NODE_ENV" = some "production" →
      ∀ other : JsError, errorHandler w other req = errorHandler w err req) := by
  refine ⟨?_, ?_, ?_⟩
  · intro hprod
    simp [errorHandler, isProduction, hprod]
  · intro hdev
    simp [errorHandler, isProduction, hdev]
  · intro hprod other
    simp [errorHandler, isProduction, hprod]

theorem fault_handler_response_witness :
    errorHandler prodWorld ⟨"secret path /etc/app", none⟩ ⟨Method.GET, "/", ""⟩ =
      LayerResult.respond ⟨500, Body.failure "Internal server error" "An error occurred"⟩ ∧
    errorHandler devWorld ⟨"bad json", some 400⟩ ⟨Method.GET, "/", ""⟩ =
      LayerResult.respond ⟨500, Body.failure "Internal server error" "bad json"⟩ :=
  ⟨(fault_handler_response prodWorld ⟨"secret path /etc/app", none⟩
      ⟨Method.GET, "/", ""⟩).1 (by decide),
   (fault_handler_response devWorld ⟨"bad json", some 400⟩
      ⟨Method.GET, "/", ""⟩).2.1 (by decide)⟩

/-- An error of the body parser, a layer registered before the
error-handling middleware, is answered by that middleware. -/
theorem body_parser_error_handled (w : World) (req : Request) (err : JsError)
    (hjson : w.jsonError req = some err) :
    route (app w) req none =
      some ⟨500, Body.failure "Internal server error"
        (if isProduction w then "An error occurred" else err.message)⟩ := by
  cases hp : isProduction w <;>
    cases hm : mountMatches "/exported_results" req.path <;>
    cases hi : routeMatches "/api/generate-insights" req.path <;>
    cases ht : routeMatches "/api/test" req.path <;>
    simp [app, route, hp, hjson, mountMatch, hm, literalMatch, hi, ht, errorHandler]

/-- An error the catch-all route forwards reaches no handler of this file:
when the layers before it pass a GET request on and `res.sendFile` forwards
`err`, Express's default final handler answers. -/
theorem catch_all_error_unhandled (w : World) (req : Request) (err : JsError)
    (hget : req.method = Method.GET) (hjson : w.jsonError req = none)
    (hbuild : w.expressStatic (buildRoot w) req = LayerResult.next)
    (hexported : mountMatches "/exported_results" req.path = true →
      w.expressStatic (exportedRoot w)
        { req with path := mountedPath "/exported_results" req.path } = LayerResult.next)
    (htest : routeMatches "/api/test" req.path = false)
    (hstar : starMatch w req.path = PathMatch.matched)
    (hsend : w.sendFile (entryDocument w) req = LayerResult.nextErr err) :
    route (app w) req none = some ⟨finalStatus err, Body.defaultPage⟩ := by
  cases hp : isProduction w <;>
    cases hm : mountMatches "/exported_results" req.path <;>
    cases hi : routeMatches "/api/generate-insights" req.path <;>
    simp_all [app, route, mountMatch, literalMatch, catchAll]

/-- C8, at the failing input: on a machine without the entry document,
GET /dashboard/settings reaches the catch-all route, whose sendFile forwards
the 404 error of the missing file; the catch-all is registered after the
error-handling middleware, so the error reaches no handler of this file and
Express's default final handler answers 404 with its own page, not status
500 with error "Internal server error". -/
theorem catch_all_error_bypasses_fault_handler :
    catchAll prodWorld ⟨Method.GET, "/dashboard/settings", ""⟩ =
      LayerResult.nextErr ⟨"ENOENT: no such file or directory", some 404⟩ ∧
    route (app prodWorld) ⟨Method.GET, "/dashboard/settings", ""⟩ none =
      some ⟨404, Body.defaultPage⟩ ∧
    ¬ ∃ details, route (app prodWorld) ⟨Method.GET, "/dashboard/settings", ""⟩ none =
      some ⟨500, Body.failure "Internal server error" details⟩ := by
  refine ⟨by decide, by decide, ?_⟩
  rintro ⟨details, hd⟩
  have h404 : route (app prodWorld) ⟨Method.GET, "/dashboard/settings", ""⟩ none =
      some ⟨404, Body.defaultPage⟩ := by decide
  rw [h404] at hd
  simp at hd

/-- A path the health route accepts is not under the `/exported_results` mount. -/
theorem apiTest_not_exported (path : String) (h : routeMatches "/api/test" path = true) :
    mountMatches "/exported_results" path = false := by
  have h1 : (lower "/exported_results").isPrefixOf (lower "/api/test") = false := by decide
  have h2 : (lower "/exported_results").isPrefixOf (lower "/api/test" ++ ['/']) = false := by
    decide
  simp only [routeMatches, Bool.or_eq_true, beq_iff_eq] at h
  rcases h with h | h
  · simp [mountMatches, h, h1]
  · simp [mountMatches, h, h2]

/-- A path the health route accepts is not the path of the insight route. -/
theorem apiTest_not_insights (path : String) (h : routeMatches "/api/test" path = true) :
    routeMatches "/api/generate-insights" path = false := by
  have h1 : (lower "/api/test" == lower "/api/generate-insights" ||
      lower "/api/test" == lower "/api/generate-insights" ++ ['/']) = false := by decide
  have h2 : (lower "/api/test" ++ ['/'] == lower "/api/generate-insights" ||
      lower "/api/test" ++ ['/'] == lower "/api/generate-insights" ++ ['/']) = false := by
    decide
  simp only [routeMatches, Bool.or_eq_true, beq_iff_eq] at h
  rcases h with h | h
  · simp only [routeMatches, h, h1]
  · simp only [routeMatches, h, h2]

/-- A static layer that answers does so before any route is tried: when the
body parser passes a request on and the bundle's static layer answers (a
file, or a redirect for a directory), that answer is the response. -/
theorem static_answer_first (w : World) (req : Request) (r : Response)
    (hjson : w.jsonError req = none)
    (hbuild : w.expressStatic (buildRoot w) req = LayerResult.respond r) :
    route (app w) req none = some r := by
  cases hp : isProduction w <;> simp [app, route, hp, hjson, hbuild]

/-- A path that cannot be decoded never reaches the catch-all handler: when
the layers before the routes pass a GET request on and matching the
catch-all pattern fails with `err`, Express's default final handler answers. -/
theorem undecodable_path_rejected (w : World) (req : Request) (err : JsError)
    (hjson : w.jsonError req = none)
    (hbuild : w.expressStatic (buildRoot w) req = LayerResult.next)
    (hexported : mountMatches "/exported_results" req.path = true →
      w.expressStatic (exportedRoot w)
        { req with path := mountedPath "/exported_results" req.path } = LayerResult.next)
    (htest : routeMatches "/api/test" req.path = false)
    (hins : routeMatches "/api/generate-insights" req.path = false)
    (hstar : starMatch w req.path = PathMatch.failed err) :
    route (app w) req none = some ⟨finalStatus err, Body.defaultPage⟩ := by
  cases hp : isProduction w <;>
    cases hm : mountMatches "/exported_results" req.path <;>
    simp_all [app, route, mountMatch, literalMatch]

/-- C10, as stated, fails at GET /api/test/ : the path is not /api/test and
names no file (both static layers pass the request on), the entry document
exists, and the request is answered by the health endpoint, not with the
entry document, because Express matches route paths up to letter case and
one trailing slash. -/
theorem trailing_slash_reaches_health_endpoint :
    (⟨Method.GET, "/api/test/", ""⟩ : Request).path ≠ "/api/test" ∧
    devWorld.expressStatic (buildRoot devWorld) ⟨Method.GET, "/api/test/", ""⟩ =
      LayerResult.next ∧
    mountMatches "/exported_results" "/api/test/" = false ∧
    devWorld.sendFile (entryDocument devWorld) ⟨Method.GET, "/api/test/", ""⟩ =
      LayerResult.respond ⟨200, Body.file "<html>app</html>"⟩ ∧
    route (app devWorld) ⟨Method.GET, "/api/test/", ""⟩ none =
      some ⟨200, Body.message "API is working"⟩ ∧
    route (app devWorld) ⟨Method.GET, "/api/test/", ""⟩ none ≠
      some ⟨200, Body.file "<html>app</html>"⟩ := by
  refine ⟨by decide, by decide, by decide, by decide, by decide, by decide⟩

/-- C10, amended: take a GET request that the layers registered before the
routes pass on: the body parser calls next, the bundle's static layer calls
next, and so does the exported-results static layer when its mount path
matches. If the path matches the route /api/test (up to letter case and one
trailing slash) and the request is not a conditional one that Express finds
fresh, the response is status 200 with body exactly
{"message": "API is working"}, not the catch-all's. If the path does not
match /api/test, Express can decode it for the catch-all pattern, and
res.sendFile answers with the entry document and status 200, then that is
the response. -/
theorem get_dispatch (w : World) (req : Request)
    (hget : req.method = Method.GET) (hjson : w.jsonError req = none)
    (hbuild : w.expressStatic (buildRoot w) req = LayerResult.next)
    (hexported : mountMatches "/exported_results" req.path = true →
      w.expressStatic (exportedRoot w)
        { req with path := mountedPath "/exported_results" req.path } = LayerResult.next) :
    (routeMatches "/api/test" req.path = true →
      w.fresh req ⟨200, Body.message "API is working"⟩ = false →
      route (app w) req none = some ⟨200, Body.message "API is working"⟩) ∧
    (routeMatches "/api/test" req.path = false →
      starMatch w req.path = PathMatch.matched →
      ∀ doc, w.sendFile (entryDocument w) req = LayerResult.respond ⟨200, Body.file doc⟩ →
        route (app w) req none = some ⟨200, Body.file doc⟩) := by
  constructor
  · intro hmatch hfresh
    have hmount := apiTest_not_exported req.path hmatch
    have hins := apiTest_not_insights req.path hmatch
    cases hp : isProduction w <;>
      simp [app, route, hp, hget, hjson, hbuild, mountMatch, hmount, literalMatch, hins, hmatch,
        apiTest, hfresh]
  · intro hmatch hstar doc hdoc
    cases hp : isProduction w <;>
      cases hm : mountMatches "/exported_results" req.path <;>
      cases hi : routeMatches "/api/generate-insights" req.path <;>
      simp_all [app, route, mountMatch, literalMatch, catchAll]

theorem get_dispatch_witness :
    route (app devWorld) ⟨Method.GET, "/api/test", ""⟩ none =
      some ⟨200, Body.message "API is working"⟩ ∧
    route (app devWorld) ⟨Method.GET, "/dashboard/settings", ""⟩ none =
      some ⟨200, Body.file "<html>app</html>"⟩ ∧
    route (app devWorld) ⟨Method.GET, "/exported_results/missing.txt", ""⟩ none =
      some ⟨200, Body.file "<html>app</html>"⟩ :=
  ⟨(get_dispatch devWorld ⟨Method.GET, "/api/test", ""⟩ rfl rfl (by decide) (by decide)).1
      (by decide) (by decide),
   (get_dispatch devWorld ⟨Method.GET, "/dashboard/settings", ""⟩ rfl rfl (by decide)
      (by decide)).2 (by decide) (by decide) "<html>app</html>" (by decide),
   (get_dispatch devWorld ⟨Method.GET, "/exported_results/missing.txt", ""⟩ rfl rfl
      (by decide) (by decide)).2 (by decide) (by decide) "<html>app</html>" (by decide)⟩

end RedVentures
